import Mathlib

/-! # QR-code login helper (package panlogin): embedding and verification

Shallow embedding of `internal/functions/panlogin/login_helper.go`.

* Go strings and byte slices are lists of bytes (`Fin 256`).
* A Go call either returns or panics: `Outcome`.
* A Go `(T, error)` result is a pair whose second component is `none` for a nil error,
  or an `Except` when the value is nil whenever the error is not.
* The library functions that the helper calls are embedded after their implementation:
  `encoding/hex`, `crypto/aes` (FIPS 197), `crypto/cipher` (CBC), `fmt` (formatting without
  operands), `net/url` (`Parse` but for the host, `ParseQuery`), and `EncryptAES`, `DecryptAES` of
  `github.com/tickstep/library-go/crypto` (AES in CBC mode, the key being the IV too, PKCS5
  padding removed without a check).
* The remote service, the JSON decoder, the build constants, the machine identifier and
  `parseHost` of `net/url`, whose set of accepted hosts has changed between releases of Go,
  are parameters (`Env`).
-/

namespace Panlogin

/-! ## Go values -/

abbrev Byte := Fin 256

/-- Go `string`: an immutable sequence of bytes. -/
abbrev GoString := List Byte

/-- Go `[]byte`. -/
abbrev Bytes := List Byte

/-- Bytes of an ASCII literal. -/
def str (s : String) : GoString := s.toList.map (fun c => Fin.ofNat c.toNat)

/-- Byte of an ASCII character. -/
def chr (c : Char) : Byte := Fin.ofNat c.toNat

/-- Go error values that the helper can come across. -/
inductive GoError where
  /-- Value of `errors.New` and of `fmt.Errorf` without a wrapping verb; `Error()` is `s`. -/
  | errorString (s : GoString)
  /-- `aes.KeySizeError`. -/
  | keySizeError (n : Nat)
  /-- `hex.InvalidByteError`. -/
  | invalidByteError (b : Byte)
  /-- `hex.ErrLength`. -/
  | errLength
  /-- `url.EscapeError`. -/
  | escapeError (s : GoString)
  /-- `url.InvalidHostError`. -/
  | invalidHostError (s : GoString)
  /-- `*url.Error`. -/
  | urlError (op : GoString) (url : GoString) (err : GoError)
  /-- Error produced by an external collaborator (transport, JSON decoder). -/
  | external (s : GoString)
  deriving DecidableEq, Repr

deriving instance DecidableEq for Except

/-- Result of running a Go call: a normal return, or a panic that unwinds the stack. -/
inductive Outcome (α : Type) where
  | ret (a : α)
  | panic (reason : String)
  deriving DecidableEq, Repr

/-- Sequencing of calls: a panic in the first aborts the rest. -/
def Outcome.bind {α β : Type} (x : Outcome α) (f : α → Outcome β) : Outcome β :=
  match x with
  | .ret a => f a
  | .panic r => .panic r

instance : Monad Outcome where
  pure := Outcome.ret
  bind := Outcome.bind

/-! ## encoding/hex -/

namespace hex

/-- Value of a hexadecimal digit (`reverseHexTable`), `none` where the table holds `0xff`. -/
def fromHexChar (c : Byte) : Option Nat :=
  if 48 ≤ c.val ∧ c.val ≤ 57 then some (c.val - 48)
  else if 97 ≤ c.val ∧ c.val ≤ 102 then some (c.val - 97 + 10)
  else if 65 ≤ c.val ∧ c.val ≤ 70 then some (c.val - 65 + 10)
  else none

/-- Go `hex.DecodeString`: the bytes decoded before the first error, and that error. -/
def DecodeString : GoString → Bytes × Option GoError
  | [] => ([], none)
  | [p] =>
    match fromHexChar p with
    | none => ([], some (.invalidByteError p))
    | some _ => ([], some .errLength)
  | p :: q :: rest =>
    match fromHexChar p, fromHexChar q with
    | none, _ => ([], some (.invalidByteError p))
    | some _, none => ([], some (.invalidByteError q))
    | some a, some b =>
      let r := DecodeString rest
      (Fin.ofNat (a * 16 + b) :: r.1, r.2)

/-- Digit of `hextable = "0123456789abcdef"`. -/
def hextable (n : Nat) : Byte :=
  if n < 10 then Fin.ofNat (48 + n) else Fin.ofNat (97 + (n - 10))

/-- Go `hex.EncodeToString`. -/
def EncodeToString : Bytes → GoString
  | [] => []
  | v :: rest => hextable (v.val / 16) :: hextable (v.val % 16) :: EncodeToString rest

end hex

/-! ## crypto/aes (FIPS 197) -/

namespace aes

/-- Column of the AES state, or word of the key schedule: four bytes. -/
structure Word where
  b0 : Byte
  b1 : Byte
  b2 : Byte
  b3 : Byte
  deriving DecidableEq, Repr

/-- AES state: four columns. -/
structure State where
  c0 : Word
  c1 : Word
  c2 : Word
  c3 : Word
  deriving DecidableEq, Repr

instance : Inhabited Word := ⟨⟨0, 0, 0, 0⟩⟩

/-- Substitution table `sbox0`. -/
def sboxTable : List Byte := [
  99, 124, 119, 123, 242, 107, 111, 197, 48, 1, 103, 43, 254, 215, 171, 118,
  202, 130, 201, 125, 250, 89, 71, 240, 173, 212, 162, 175, 156, 164, 114, 192,
  183, 253, 147, 38, 54, 63, 247, 204, 52, 165, 229, 241, 113, 216, 49, 21,
  4, 199, 35, 195, 24, 150, 5, 154, 7, 18, 128, 226, 235, 39, 178, 117,
  9, 131, 44, 26, 27, 110, 90, 160, 82, 59, 214, 179, 41, 227, 47, 132,
  83, 209, 0, 237, 32, 252, 177, 91, 106, 203, 190, 57, 74, 76, 88, 207,
  208, 239, 170, 251, 67, 77, 51, 133, 69, 249, 2, 127, 80, 60, 159, 168,
  81, 163, 64, 143, 146, 157, 56, 245, 188, 182, 218, 33, 16, 255, 243, 210,
  205, 12, 19, 236, 95, 151, 68, 23, 196, 167, 126, 61, 100, 93, 25, 115,
  96, 129, 79, 220, 34, 42, 144, 136, 70, 238, 184, 20, 222, 94, 11, 219,
  224, 50, 58, 10, 73, 6, 36, 92, 194, 211, 172, 98, 145, 149, 228, 121,
  231, 200, 55, 109, 141, 213, 78, 169, 108, 86, 244, 234, 101, 122, 174, 8,
  186, 120, 37, 46, 28, 166, 180, 198, 232, 221, 116, 31, 75, 189, 139, 138,
  112, 62, 181, 102, 72, 3, 246, 14, 97, 53, 87, 185, 134, 193, 29, 158,
  225, 248, 152, 17, 105, 217, 142, 148, 155, 30, 135, 233, 206, 85, 40, 223,
  140, 161, 137, 13, 191, 230, 66, 104, 65, 153, 45, 15, 176, 84, 187, 22]

/-- Inverse substitution table `sbox1`. -/
def invSboxTable : List Byte := [
  82, 9, 106, 213, 48, 54, 165, 56, 191, 64, 163, 158, 129, 243, 215, 251,
  124, 227, 57, 130, 155, 47, 255, 135, 52, 142, 67, 68, 196, 222, 233, 203,
  84, 123, 148, 50, 166, 194, 35, 61, 238, 76, 149, 11, 66, 250, 195, 78,
  8, 46, 161, 102, 40, 217, 36, 178, 118, 91, 162, 73, 109, 139, 209, 37,
  114, 248, 246, 100, 134, 104, 152, 22, 212, 164, 92, 204, 93, 101, 182, 146,
  108, 112, 72, 80, 253, 237, 185, 218, 94, 21, 70, 87, 167, 141, 157, 132,
  144, 216, 171, 0, 140, 188, 211, 10, 247, 228, 88, 5, 184, 179, 69, 6,
  208, 44, 30, 143, 202, 63, 15, 2, 193, 175, 189, 3, 1, 19, 138, 107,
  58, 145, 17, 65, 79, 103, 220, 234, 151, 242, 207, 206, 240, 180, 230, 115,
  150, 172, 116, 34, 231, 173, 53, 133, 226, 249, 55, 232, 28, 117, 223, 110,
  71, 241, 26, 113, 29, 41, 197, 137, 111, 183, 98, 14, 170, 24, 190, 27,
  252, 86, 62, 75, 198, 210, 121, 32, 154, 219, 192, 254, 120, 205, 90, 244,
  31, 221, 168, 51, 136, 7, 199, 49, 177, 18, 16, 89, 39, 128, 236, 95,
  96, 81, 127, 169, 25, 181, 74, 13, 45, 229, 122, 159, 147, 201, 156, 239,
  160, 224, 59, 77, 174, 42, 245, 176, 200, 235, 187, 60, 131, 83, 153, 97,
  23, 43, 4, 126, 186, 119, 214, 38, 225, 105, 20, 99, 85, 33, 12, 125]

def sbox (b : Byte) : Byte := sboxTable.getD b.val 0

def invSbox (b : Byte) : Byte := invSboxTable.getD b.val 0

/-- Multiplication by `x` in GF(2^8) modulo `x^8 + x^4 + x^3 + x + 1`. -/
def xtime (a : Byte) : Byte :=
  Fin.ofNat ((a.val * 2 % 256) ^^^ (if a.val < 128 then 0 else 27))

def mul2 (a : Byte) : Byte := xtime a
def mul3 (a : Byte) : Byte := xtime a ^^^ a
def mul9 (a : Byte) : Byte := xtime (xtime (xtime a)) ^^^ a
def mul11 (a : Byte) : Byte := xtime (xtime (xtime a)) ^^^ xtime a ^^^ a
def mul13 (a : Byte) : Byte := xtime (xtime (xtime a)) ^^^ xtime (xtime a) ^^^ a
def mul14 (a : Byte) : Byte := xtime (xtime (xtime a)) ^^^ xtime (xtime a) ^^^ xtime a

def Word.map (f : Byte → Byte) (w : Word) : Word := ⟨f w.b0, f w.b1, f w.b2, f w.b3⟩

def Word.xor (a b : Word) : Word := ⟨a.b0 ^^^ b.b0, a.b1 ^^^ b.b1, a.b2 ^^^ b.b2, a.b3 ^^^ b.b3⟩

def State.map (f : Word → Word) (s : State) : State := ⟨f s.c0, f s.c1, f s.c2, f s.c3⟩

def subBytes (s : State) : State := s.map (Word.map sbox)

def invSubBytes (s : State) : State := s.map (Word.map invSbox)

/-- Row `r` of the state is rotated left by `r` columns. -/
def shiftRows (s : State) : State :=
  ⟨⟨s.c0.b0, s.c1.b1, s.c2.b2, s.c3.b3⟩,
   ⟨s.c1.b0, s.c2.b1, s.c3.b2, s.c0.b3⟩,
   ⟨s.c2.b0, s.c3.b1, s.c0.b2, s.c1.b3⟩,
   ⟨s.c3.b0, s.c0.b1, s.c1.b2, s.c2.b3⟩⟩

def invShiftRows (s : State) : State :=
  ⟨⟨s.c0.b0, s.c3.b1, s.c2.b2, s.c1.b3⟩,
   ⟨s.c1.b0, s.c0.b1, s.c3.b2, s.c2.b3⟩,
   ⟨s.c2.b0, s.c1.b1, s.c0.b2, s.c3.b3⟩,
   ⟨s.c3.b0, s.c2.b1, s.c1.b2, s.c0.b3⟩⟩

def mixColumn (w : Word) : Word :=
  ⟨mul2 w.b0 ^^^ mul3 w.b1 ^^^ w.b2 ^^^ w.b3,
   w.b0 ^^^ mul2 w.b1 ^^^ mul3 w.b2 ^^^ w.b3,
   w.b0 ^^^ w.b1 ^^^ mul2 w.b2 ^^^ mul3 w.b3,
   mul3 w.b0 ^^^ w.b1 ^^^ w.b2 ^^^ mul2 w.b3⟩

def invMixColumn (w : Word) : Word :=
  ⟨mul14 w.b0 ^^^ mul11 w.b1 ^^^ mul13 w.b2 ^^^ mul9 w.b3,
   mul9 w.b0 ^^^ mul14 w.b1 ^^^ mul11 w.b2 ^^^ mul13 w.b3,
   mul13 w.b0 ^^^ mul9 w.b1 ^^^ mul14 w.b2 ^^^ mul11 w.b3,
   mul11 w.b0 ^^^ mul13 w.b1 ^^^ mul9 w.b2 ^^^ mul14 w.b3⟩

def mixColumns (s : State) : State := s.map mixColumn

def invMixColumns (s : State) : State := s.map invMixColumn

def addRoundKey (s k : State) : State :=
  ⟨s.c0.xor k.c0, s.c1.xor k.c1, s.c2.xor k.c2, s.c3.xor k.c3⟩

/-- Round constant `x^(i-1)` of the key schedule (`powx`). -/
def rcon : Nat → Byte
  | 0 => 0
  | 1 => 1
  | n + 1 => xtime (rcon n)

def rotWord (w : Word) : Word := ⟨w.b1, w.b2, w.b3, w.b0⟩

def subWord (w : Word) : Word := w.map sbox

/-- Bytes of a key grouped into words. -/
def keyWords : Bytes → List Word
  | a :: b :: c :: d :: rest => ⟨a, b, c, d⟩ :: keyWords rest
  | _ => []

/-- Word `w[i]` of the key schedule from the words `ws = w[0..i-1]`, for a key of `nk` words. -/
def expandStep (nk : Nat) (ws : List Word) (i : Nat) : Word :=
  let t := ws.getD (i - 1) default
  let t :=
    if i % nk = 0 then (subWord (rotWord t)).xor ⟨rcon (i / nk), 0, 0, 0⟩
    else if nk > 6 ∧ i % nk = 4 then subWord t
    else t
  (ws.getD (i - nk) default).xor t

/-- Loop of `expandKeyGo`: appends `n` further words to the schedule. -/
def expandLoop (nk : Nat) : Nat → List Word → List Word
  | 0, ws => ws
  | n + 1, ws => expandLoop nk n (ws ++ [expandStep nk ws ws.length])

/-- Words of a schedule grouped into round keys. -/
def roundKeys : List Word → List State
  | a :: b :: c :: d :: rest => ⟨a, b, c, d⟩ :: roundKeys rest
  | _ => []

/-- Key expansion: `len key / 4 + 7` round keys. -/
def expandKey (key : Bytes) : List State :=
  let nk := key.length / 4
  roundKeys (expandLoop nk (4 * (nk + 7) - nk) (keyWords key))

/-- Rounds 1 to Nr of the cipher; the last one has no MixColumns. -/
def rounds : List State → State → State
  | [], s => s
  | [last], s => addRoundKey (shiftRows (subBytes s)) last
  | rk :: rest, s => rounds rest (addRoundKey (mixColumns (shiftRows (subBytes s))) rk)

/-- Inverse of `rounds`, given the same round keys in the same order. -/
def invRounds : List State → State → State
  | [], s => s
  | [last], s => invSubBytes (invShiftRows (addRoundKey s last))
  | rk :: rest, s =>
    invSubBytes (invShiftRows (invMixColumns (addRoundKey (invRounds rest s) rk)))

def encryptState (rks : List State) (s : State) : State :=
  match rks with
  | [] => s
  | rk0 :: rest => rounds rest (addRoundKey s rk0)

def decryptState (rks : List State) (s : State) : State :=
  match rks with
  | [] => s
  | rk0 :: rest => addRoundKey (invRounds rest s) rk0

/-- State loaded from the first sixteen bytes of a block, column by column. -/
def State.ofBytes (b : Bytes) : State :=
  ⟨⟨b.getD 0 0, b.getD 1 0, b.getD 2 0, b.getD 3 0⟩,
   ⟨b.getD 4 0, b.getD 5 0, b.getD 6 0, b.getD 7 0⟩,
   ⟨b.getD 8 0, b.getD 9 0, b.getD 10 0, b.getD 11 0⟩,
   ⟨b.getD 12 0, b.getD 13 0, b.getD 14 0, b.getD 15 0⟩⟩

def Word.toBytes (w : Word) : Bytes := [w.b0, w.b1, w.b2, w.b3]

def State.toBytes (s : State) : Bytes :=
  s.c0.toBytes ++ s.c1.toBytes ++ s.c2.toBytes ++ s.c3.toBytes

def BlockSize : Nat := 16

/-- Cipher block made by `aes.NewCipher`: the expanded key. -/
structure Block where
  rks : List State
  deriving DecidableEq, Repr

/-- Go `aes.NewCipher`: only keys of 16, 24 or 32 bytes are accepted. -/
def NewCipher (key : Bytes) : Except GoError Block :=
  if key.length = 16 ∨ key.length = 24 ∨ key.length = 32 then .ok ⟨expandKey key⟩
  else .error (.keySizeError key.length)

/-- Go `Block.Encrypt` on one full block. -/
def Block.Encrypt (c : Block) (src : Bytes) : Bytes :=
  (encryptState c.rks (State.ofBytes src)).toBytes

/-- Go `Block.Decrypt` on one full block. -/
def Block.Decrypt (c : Block) (src : Bytes) : Bytes :=
  (decryptState c.rks (State.ofBytes src)).toBytes

/-- A function on bytes is additive at `b`: it maps a sum with `b` to the sum of the images. -/
def AddAt (f : Byte → Byte) (b : Byte) : Prop := ∀ a, f (a ^^^ b) = f a ^^^ f b

/-- The bit `i` of a byte, in place. -/
def bitAt (b : Byte) (i : Nat) : Byte := if b.val.testBit i then Fin.ofNat (2 ^ i) else 0

end aes

/-! ## crypto/cipher: CBC mode -/

namespace cipher

/-- Go `subtle.XORBytes` on two blocks. -/
def xorBytes (a b : Bytes) : Bytes := List.zipWith (fun x y => x ^^^ y) a b

/-- Loop of `cbcEncrypter.CryptBlocks` over `n` blocks: each block is xored with the previous
ciphertext block (the IV for the first) and encrypted. -/
def encryptBlocks (b : aes.Block) : Nat → Bytes → Bytes → Bytes
  | 0, _, _ => []
  | n + 1, iv, src =>
    let c := b.Encrypt (xorBytes (src.take 16) iv)
    c ++ encryptBlocks b n c (src.drop 16)

/-- Loop of `cbcDecrypter.CryptBlocks` over `n` blocks: each block is decrypted and xored with
the previous ciphertext block (the IV for the first). -/
def decryptBlocks (b : aes.Block) : Nat → Bytes → Bytes → Bytes
  | 0, _, _ => []
  | n + 1, iv, src =>
    xorBytes (b.Decrypt (src.take 16)) iv ++ decryptBlocks b n (src.take 16) (src.drop 16)

/-- Block mode made by `cipher.NewCBCEncrypter` or `cipher.NewCBCDecrypter`. -/
structure BlockMode where
  b : aes.Block
  iv : Bytes
  deriving DecidableEq, Repr

/-- Go `cipher.NewCBCEncrypter`. -/
def NewCBCEncrypter (b : aes.Block) (iv : Bytes) : Outcome BlockMode :=
  if iv.length ≠ aes.BlockSize then .panic "cipher.NewCBCEncrypter: IV length must equal block size"
  else .ret ⟨b, iv⟩

/-- Go `cipher.NewCBCDecrypter`. -/
def NewCBCDecrypter (b : aes.Block) (iv : Bytes) : Outcome BlockMode :=
  if iv.length ≠ aes.BlockSize then .panic "cipher.NewCBCDecrypter: IV length must equal block size"
  else .ret ⟨b, iv⟩

/-- Go `cbcEncrypter.CryptBlocks` into a destination as long as the source. -/
def BlockMode.EncryptBlocks (x : BlockMode) (src : Bytes) : Outcome Bytes :=
  if src.length % aes.BlockSize ≠ 0 then .panic "crypto/cipher: input not full blocks"
  else .ret (encryptBlocks x.b (src.length / aes.BlockSize) x.iv src)

/-- Go `cbcDecrypter.CryptBlocks` into a destination as long as the source. -/
def BlockMode.DecryptBlocks (x : BlockMode) (src : Bytes) : Outcome Bytes :=
  if src.length % aes.BlockSize ≠ 0 then .panic "crypto/cipher: input not full blocks"
  else .ret (decryptBlocks x.b (src.length / aes.BlockSize) x.iv src)

end cipher

/-! ## github.com/tickstep/library-go/crypto -/

namespace crypto

/-- Go `PKCS5Padding`: `padding` bytes of value `padding` are appended. -/
def PKCS5Padding (ciphertext : Bytes) (blockSize : Nat) : Bytes :=
  let padding := blockSize - ciphertext.length % blockSize
  ciphertext ++ List.replicate padding (Fin.ofNat padding)

/-- Go `PKCS5UnPadding`: the last byte is read as the number of bytes to drop; the bytes
dropped are not checked. An empty input or a count above the length panics. -/
def PKCS5UnPadding (origData : Bytes) : Outcome Bytes :=
  match origData.getLast? with
  | none => .panic "runtime error: index out of range [-1]"
  | some unpadding =>
    if unpadding.val > origData.length then .panic "runtime error: slice bounds out of range"
    else .ret (origData.take (origData.length - unpadding.val))

/-- Go `crypto.EncryptAES`: AES in CBC mode over the PKCS5-padded data, the key being passed
as the IV too, so that a key of 24 or 32 bytes panics on the length of the IV. -/
def EncryptAES (origData key : Bytes) : Outcome (Except GoError Bytes) :=
  match aes.NewCipher key with
  | .error err => .ret (.error err)
  | .ok block => do
    let padded := PKCS5Padding origData aes.BlockSize
    let blockMode ← cipher.NewCBCEncrypter block key
    let crypted ← blockMode.EncryptBlocks padded
    return .ok crypted

/-- Go `crypto.DecryptAES`: AES in CBC mode, the key being passed as the IV too, followed by
`PKCS5UnPadding`. -/
def DecryptAES (eb key : Bytes) : Outcome (Except GoError Bytes) :=
  match aes.NewCipher key with
  | .error err => .ret (.error err)
  | .ok block => do
    let blockMode ← cipher.NewCBCDecrypter block key
    let origData ← blockMode.DecryptBlocks eb
    let origData ← PKCS5UnPadding origData
    return .ok origData

end crypto

/-! ## fmt: formatting without operands -/

namespace fmt

def isDigit (c : Byte) : Bool := 48 ≤ c.val && c.val ≤ 57

/-- Flags that may follow the percent sign: `#`, `0`, `+`, `-` and space. -/
def isFlag (c : Byte) : Bool :=
  c = chr '#' || c = chr '0' || c = chr '+' || c = chr '-' || c = chr ' '

def tooLarge (x : Nat) : Bool := x > 1000000

/-- Loop of `parsenum` over the bytes between `start` and `end`: value, whether a digit was
read, and the bytes left before `end` (none after an overflow, where Go returns `end`). -/
def parsenumLoop : GoString → Nat → Bool → Nat × Bool × GoString
  | [], num, isnum => (num, isnum, [])
  | c :: rest, num, isnum =>
    if isDigit c then
      if tooLarge num then (0, false, [])
      else parsenumLoop rest (num * 10 + (c.val - 48)) true
    else (num, isnum, c :: rest)

def parsenum (seg : GoString) : Nat × Bool × GoString := parsenumLoop seg 0 false

/-- Go `parseArgNumber` on a format that starts with `[`: the width of the bracketed index
and whether it is a number. -/
def parseArgNumber (format : GoString) : Nat × Bool :=
  if format.length < 3 then (1, false)
  else
    let body := format.drop 1
    if body.contains (chr ']') then
      let seg := body.takeWhile (fun c => c ≠ chr ']')
      let i := seg.length + 1
      let r := parsenum seg
      if !r.2.1 || r.2.2 ≠ [] then (i + 1, false) else (i + 1, true)
    else (1, false)

/-- Go `argNumber` when there are no operands: the rest of the format, whether an index was
found, and whether the argument number is still good. An index can never be in range. -/
def argNumber (format : GoString) (good : Bool) : GoString × Bool × Bool :=
  match format with
  | [] => ([], false, good)
  | c :: _ =>
    if c ≠ chr '[' then (format, false, good)
    else
      let r := parseArgNumber format
      (format.drop r.1, r.2, false)

/-- Width in bytes of the UTF-8 encoding that starts `s`, or 0 where `utf8.DecodeRuneInString`
gives `RuneError` with width 1. -/
def runeLen (s : GoString) : Nat :=
  let cont (b : Byte) (lo hi : Nat) : Bool := lo ≤ b.val && b.val ≤ hi
  match s with
  | [] => 0
  | a :: rest =>
    if a.val < 128 then 1
    else if 194 ≤ a.val ∧ a.val ≤ 223 then
      match rest with
      | b :: _ => if cont b 128 191 then 2 else 0
      | _ => 0
    else if 224 ≤ a.val ∧ a.val ≤ 239 then
      let lo := if a.val = 224 then 160 else 128
      let hi := if a.val = 237 then 159 else 191
      match rest with
      | b :: c :: _ => if cont b lo hi && cont c 128 191 then 3 else 0
      | _ => 0
    else if 240 ≤ a.val ∧ a.val ≤ 244 then
      let lo := if a.val = 240 then 144 else 128
      let hi := if a.val = 244 then 143 else 191
      match rest with
      | b :: c :: d :: _ => if cont b lo hi && cont c 128 191 && cont d 128 191 then 4 else 0
      | _ => 0
    else 0

/-- Processing of one verb, from the byte after the percent sign, when there are no operands:
the text written and the rest of the format (empty after `%!(NOVERB)`, where Go stops). A
point opens a precision only when a byte follows it (`i+1 < end`); a point that ends the
format is the verb. -/
def verbStep (format : GoString) : GoString × GoString :=
  -- flags
  let s := format.dropWhile isFlag
  -- explicit argument index
  let r := argNumber s true
  let s := r.1
  let afterIndex := r.2.1
  let good := r.2.2
  -- width
  let w : GoString × GoString × Bool × Bool :=
    match s with
    | c :: rest =>
      if c = chr '*' then (str "%!(BADWIDTH)", rest, false, good)
      else
        let n := parsenum s
        ([], n.2.2, afterIndex, if afterIndex && n.2.1 then false else good)
    | [] => ([], [], afterIndex, good)
  let out1 := w.1
  let s := w.2.1
  let afterIndex := w.2.2.1
  let good := w.2.2.2
  -- precision
  let p : GoString × GoString × Bool × Bool :=
    match s with
    | c :: rest =>
      if c = chr '.' ∧ rest ≠ [] then
        let good := if afterIndex then false else good
        let r := argNumber rest good
        match r.1 with
        | d :: rest2 =>
          if d = chr '*' then (str "%!(BADPREC)", rest2, false, r.2.2)
          else ([], (parsenum r.1).2.2, r.2.1, r.2.2)
        | [] => ([], [], r.2.1, r.2.2)
      else ([], s, afterIndex, good)
    | [] => ([], [], afterIndex, good)
  let out2 := p.1
  let s := p.2.1
  let afterIndex := p.2.2.1
  let good := p.2.2.2
  let r := if afterIndex then (s, afterIndex, good) else argNumber s good
  let s := r.1
  let good := r.2.2
  match s with
  | [] => (out1 ++ out2 ++ str "%!(NOVERB)", [])
  | c :: rest =>
    let size := if c.val < 128 then 1 else runeLen s
    let verb : GoString := if size = 0 then [239, 191, 189] else s.take size
    let rest := if size = 0 then rest else s.drop size
    if c = chr '%' then (out1 ++ out2 ++ [chr '%'], rest)
    else if !good then (out1 ++ out2 ++ str "%!" ++ verb ++ str "(BADINDEX)", rest)
    else (out1 ++ out2 ++ str "%!" ++ verb ++ str "(MISSING)", rest)

/-- Loop of `doPrintf` when there are no operands; every round consumes a percent sign. -/
def doPrintf : Nat → GoString → GoString
  | 0, _ => []
  | fuel + 1, format =>
    let lit := format.takeWhile (fun c => c ≠ chr '%')
    match format.dropWhile (fun c => c ≠ chr '%') with
    | [] => lit
    | _ :: rest =>
      let r := verbStep rest
      lit ++ r.1 ++ doPrintf fuel r.2

/-- Go `fmt.Sprintf(format)` with no operands. -/
def Sprintf (format : GoString) : GoString := doPrintf (format.length + 1) format

/-- Go `fmt.Errorf(format)` with no operands: the argument is a format, not a text. -/
def Errorf (format : GoString) : GoError := .errorString (Sprintf format)

end fmt

/-! ## strings -/

namespace strings

/-- Go `strings.Cut` with a separator of one byte. -/
def Cut (s : GoString) (sep : Byte) : GoString × GoString × Bool :=
  let before := s.takeWhile (fun c => c ≠ sep)
  match s.dropWhile (fun c => c ≠ sep) with
  | [] => (s, [], false)
  | _ :: after => (before, after, true)

/-- Go `strings.LastIndex` with a separator of one byte, `none` standing for -1. -/
def LastIndexByte : GoString → Byte → Option Nat
  | [], _ => none
  | c :: rest, sep =>
    match LastIndexByte rest sep with
    | some i => some (i + 1)
    | none => if c = sep then some 0 else none

/-- Go `strings.ToLower` on ASCII. -/
def ToLower (s : GoString) : GoString :=
  s.map (fun c => if 65 ≤ c.val ∧ c.val ≤ 90 then Fin.ofNat (c.val + 32) else c)

end strings

/-! ## net/url -/

namespace url

/-- Places of a URL, each with its own escaping rules. -/
inductive encoding where
  | encodePath
  | encodePathSegment
  | encodeHost
  | encodeZone
  | encodeUserPassword
  | encodeQueryComponent
  | encodeFragment
  deriving DecidableEq, Repr

def ishex (c : Byte) : Bool :=
  (48 ≤ c.val && c.val ≤ 57) || (97 ≤ c.val && c.val ≤ 102) || (65 ≤ c.val && c.val ≤ 70)

def unhex (c : Byte) : Nat :=
  if 48 ≤ c.val ∧ c.val ≤ 57 then c.val - 48
  else if 97 ≤ c.val ∧ c.val ≤ 102 then c.val - 97 + 10
  else if 65 ≤ c.val ∧ c.val ≤ 70 then c.val - 65 + 10
  else 0

def isAlnum (c : Byte) : Bool :=
  (97 ≤ c.val && c.val ≤ 122) || (65 ≤ c.val && c.val ≤ 90) || (48 ≤ c.val && c.val ≤ 57)

/-- Go `shouldEscape`: whether the byte must be escaped in the given place. -/
def shouldEscape (c : Byte) (mode : encoding) : Bool :=
  if isAlnum c then false
  else if (mode = .encodeHost ∨ mode = .encodeZone) ∧ c ∈ str "!$&'()*+,;=:[]<>\"" then false
  else if c ∈ str "-_.~" then false
  else if c ∈ str "$&+,/:;=?@" ∧ mode = .encodePath then c = chr '?'
  else if c ∈ str "$&+,/:;=?@" ∧ mode = .encodePathSegment then
    c = chr '/' || c = chr ';' || c = chr ',' || c = chr '?'
  else if c ∈ str "$&+,/:;=?@" ∧ mode = .encodeUserPassword then
    c = chr '@' || c = chr '/' || c = chr '?' || c = chr ':'
  else if c ∈ str "$&+,/:;=?@" ∧ mode = .encodeQueryComponent then true
  else if c ∈ str "$&+,/:;=?@" ∧ mode = .encodeFragment then false
  else if mode = .encodeFragment ∧ c ∈ str "!()*" then false
  else true

/-- Go `unescape`: percent escapes are decoded, a plus sign is a space in a query component;
the first malformed escape, or byte a host cannot hold, is an error. -/
def unescape : GoString → encoding → Except GoError GoString
  | [], _ => .ok []
  | [c], mode =>
    if c = chr '%' then .error (.escapeError [c])
    else if c = chr '+' then .ok [if mode = .encodeQueryComponent then chr ' ' else c]
    else if (mode = .encodeHost ∨ mode = .encodeZone) ∧ c.val < 128
        ∧ shouldEscape c .encodeHost then
      .error (.invalidHostError [c])
    else .ok [c]
  | [c, d], mode =>
    if c = chr '%' then .error (.escapeError [c, d])
    else if c = chr '+' then
      (unescape [d] mode).map (fun t => (if mode = .encodeQueryComponent then chr ' ' else c) :: t)
    else if (mode = .encodeHost ∨ mode = .encodeZone) ∧ c.val < 128
        ∧ shouldEscape c .encodeHost then
      .error (.invalidHostError [c])
    else (unescape [d] mode).map (fun t => c :: t)
  | c :: d :: e :: rest, mode =>
    if c = chr '%' then
      if !ishex d || !ishex e then .error (.escapeError [c, d, e])
      else if mode = .encodeHost ∧ unhex d < 8 ∧ [c, d, e] ≠ str "%25" then
        .error (.escapeError [c, d, e])
      else if mode = .encodeZone ∧ [c, d, e] ≠ str "%25" ∧ unhex d * 16 + unhex e ≠ 32
          ∧ shouldEscape (Fin.ofNat (unhex d * 16 + unhex e)) .encodeHost then
        .error (.escapeError [c, d, e])
      else (unescape rest mode).map (fun t => Fin.ofNat (unhex d * 16 + unhex e) :: t)
    else if c = chr '+' then
      (unescape (d :: e :: rest) mode).map
        (fun t => (if mode = .encodeQueryComponent then chr ' ' else c) :: t)
    else if (mode = .encodeHost ∨ mode = .encodeZone) ∧ c.val < 128
        ∧ shouldEscape c .encodeHost then
      .error (.invalidHostError [c])
    else (unescape (d :: e :: rest) mode).map (fun t => c :: t)

/-- Go `url.QueryUnescape`. -/
def QueryUnescape (s : GoString) : Except GoError GoString := unescape s .encodeQueryComponent

/-- Go `url.Values`: the keys in the order they were first set, each with its values. -/
abbrev Values := List (GoString × List GoString)

/-- Map lookup `m[key]`: the nil slice when the key is absent. -/
def Values.get (m : Values) (key : GoString) : List GoString :=
  match m with
  | [] => []
  | (k, vs) :: rest => if k = key then vs else Values.get rest key

/-- Statement `m[key] = append(m[key], value)`. -/
def Values.add (m : Values) (key value : GoString) : Values :=
  match m with
  | [] => [(key, [value])]
  | (k, vs) :: rest =>
    if k = key then (k, vs ++ [value]) :: rest else (k, vs) :: Values.add rest key value

/-- Loop of `parseQuery`: the query is cut at each ampersand; a setting with a semicolon or a
bad escape is skipped and recorded as the error, and the loop goes on. -/
def parseQuery : Nat → Values → Option GoError → GoString → Values × Option GoError
  | 0, m, err, _ => (m, err)
  | fuel + 1, m, err, query =>
    if query = [] then (m, err)
    else
      let c := strings.Cut query (chr '&')
      let key := c.1
      let query := c.2.1
      if chr ';' ∈ key then
        parseQuery fuel m (some (.errorString (str "invalid semicolon separator in query"))) query
      else if key = [] then parseQuery fuel m err query
      else
        let kv := strings.Cut key (chr '=')
        match QueryUnescape kv.1 with
        | .error err1 => parseQuery fuel m (if err = none then some err1 else err) query
        | .ok key =>
          match QueryUnescape kv.2.1 with
          | .error err1 => parseQuery fuel m (if err = none then some err1 else err) query
          | .ok value => parseQuery fuel (m.add key value) err query

/-- Go `url.ParseQuery`: the values found, also when an error is reported. -/
def ParseQuery (query : GoString) : Values × Option GoError :=
  parseQuery (query.length + 1) [] none query

/-- Go `url.Userinfo`. -/
structure Userinfo where
  username : GoString
  password : GoString
  passwordSet : Bool
  deriving DecidableEq, Repr

/-- Go `url.URL`, without the fields that only record how the URL was written
(`RawPath`, `RawFragment`, `OmitHost`). -/
structure URL where
  Scheme : GoString := []
  Opaque : GoString := []
  User : Option Userinfo := none
  Host : GoString := []
  Path : GoString := []
  ForceQuery : Bool := false
  RawQuery : GoString := []
  Fragment : GoString := []
  deriving DecidableEq, Repr

/-- Go `getScheme`: scheme and rest; no scheme when the first byte that is not a letter
comes first or is not a colon. -/
def getSchemeLoop : Nat → GoString → GoString → Except GoError (GoString × GoString)
  | _, rawURL, [] => .ok ([], rawURL)
  | i, rawURL, c :: rest =>
    if (97 ≤ c.val ∧ c.val ≤ 122) ∨ (65 ≤ c.val ∧ c.val ≤ 90) then
      getSchemeLoop (i + 1) rawURL rest
    else if (48 ≤ c.val ∧ c.val ≤ 57) ∨ c = chr '+' ∨ c = chr '-' ∨ c = chr '.' then
      if i = 0 then .ok ([], rawURL) else getSchemeLoop (i + 1) rawURL rest
    else if c = chr ':' then
      if i = 0 then .error (.errorString (str "missing protocol scheme"))
      else .ok (rawURL.take i, rest)
    else .ok ([], rawURL)

def getScheme (rawURL : GoString) : Except GoError (GoString × GoString) :=
  getSchemeLoop 0 rawURL rawURL

def stringContainsCTLByte (s : GoString) : Bool := s.any (fun b => b.val < 32 || b.val = 127)

def validUserinfo (s : GoString) : Bool :=
  s.all (fun r => isAlnum r || r ∈ str "-._:~!$&'()*+,;=%@")

/-- Go `parseAuthority`, given `parseHost`. -/
def parseAuthority (parseHost : GoString → Except GoError GoString) (authority : GoString) :
    Except GoError (Option Userinfo × GoString) :=
  match strings.LastIndexByte authority (chr '@') with
  | none => do
    let host ← parseHost authority
    return (none, host)
  | some i => do
    let host ← parseHost (authority.drop (i + 1))
    let userinfo := authority.take i
    if !validUserinfo userinfo then .error (.errorString (str "net/url: invalid userinfo"))
    else if chr ':' ∉ userinfo then do
      let userinfo ← unescape userinfo .encodeUserPassword
      return (some ⟨userinfo, [], false⟩, host)
    else do
      let c := strings.Cut userinfo (chr ':')
      let username ← unescape c.1 .encodeUserPassword
      let password ← unescape c.2.1 .encodeUserPassword
      return (some ⟨username, password, true⟩, host)

/-- Go `parse(rawURL, false)`, given `parseHost`: a URL without its fragment. -/
def parse (parseHost : GoString → Except GoError GoString) (rawURL : GoString) :
    Except GoError URL :=
  if stringContainsCTLByte rawURL then
    .error (.errorString (str "net/url: invalid control character in URL"))
  else if rawURL = str "*" then .ok { Path := str "*" }
  else do
    let sr ← getScheme rawURL
    let scheme := strings.ToLower sr.1
    let rest := sr.2
    let q : GoString × GoString × Bool :=
      if rest.getLast? = some (chr '?') ∧ rest.count (chr '?') = 1 then (rest.dropLast, [], true)
      else
        let c := strings.Cut rest (chr '?')
        (c.1, c.2.1, false)
    let rest := q.1
    let u : URL := { Scheme := scheme, RawQuery := q.2.1, ForceQuery := q.2.2 }
    if !(str "/").isPrefixOf rest ∧ scheme ≠ [] then .ok { u with Opaque := rest }
    else if !(str "/").isPrefixOf rest ∧ chr ':' ∈ (strings.Cut rest (chr '/')).1 then
      .error (.errorString (str "first path segment in URL cannot contain colon"))
    else if (scheme ≠ [] ∨ !(str "///").isPrefixOf rest) ∧ (str "//").isPrefixOf rest then do
      let authority := rest.drop 2
      let a := authority.takeWhile (fun c => c ≠ chr '/')
      let rest := authority.dropWhile (fun c => c ≠ chr '/')
      let uh ← parseAuthority parseHost a
      let path ← unescape rest .encodePath
      return { u with User := uh.1, Host := uh.2, Path := path }
    else do
      let path ← unescape rest .encodePath
      return { u with Path := path }

/-- Go `url.Parse`, given `parseHost`: the fragment is cut off at the first `#`, the rest is
parsed, and every error is wrapped in a `*url.Error`. -/
def Parse (parseHost : GoString → Except GoError GoString) (rawURL : GoString) :
    Except GoError URL :=
  let c := strings.Cut rawURL (chr '#')
  match parse parseHost c.1 with
  | .error err => .error (.urlError (str "parse") c.1 err)
  | .ok u =>
    if c.2.1 = [] then .ok u
    else
      match unescape c.2.1 .encodeFragment with
      | .error err => .error (.urlError (str "parse") rawURL err)
      | .ok frag => .ok { u with Fragment := frag }

end url

/-! ## package panlogin -/

/-- LoginHttpResult: the envelope of every response, after `json.Unmarshal`. -/
structure LoginHttpResult (α : Type) where
  Code : Int
  Msg : GoString
  /-- Value of the `Data` interface: `none` is the nil interface that a JSON `null` leaves. -/
  Data : Option α
  deriving DecidableEq, Repr

/-- QRCodeUrlResult 二维码登录页面 -/
structure QRCodeUrlResult where
  TokenId : GoString
  TokenUrl : GoString
  ExpiredTime : Int
  deriving DecidableEq, Repr

/-- QRCodeLoginResult 二维码登录结果 -/
structure QRCodeLoginResult where
  QrCodeStatus : GoString
  SecureRefreshToken : GoString
  deriving DecidableEq, Repr

structure LoginHelper where
  webHost : GoString
  deriving DecidableEq, Repr

def NewLoginHelper (webHost : GoString) : LoginHelper := { webHost := webHost }

/-- External collaborators of the helper: the machine, the remote service and the JSON
decoder. `UnmarshalQRCodeUrl` and `UnmarshalQRCodeLogin` stand for `json.Unmarshal` into a
`LoginHttpResult` whose `Data` holds a pointer to the named result type. -/
structure Env where
  /-- Go `getip.IPInfoFromTechainBaidu()`. -/
  IPInfoFromTechainBaidu : Except GoError GoString
  /-- Go `runtime.GOOS`. -/
  GOOS : GoString
  /-- Go `runtime.GOARCH`. -/
  GOARCH : GoString
  /-- Go `config.AppVersion`. -/
  AppVersion : GoString
  /-- Go `client.Fetch(method, url, nil, header)` on a fresh client with a timeout of 20
  seconds and no keep-alive. -/
  Fetch : GoString → GoString → List (GoString × GoString) → Except GoError Bytes
  /-- Go `json.Unmarshal(body, r)` with `r.Data = &QRCodeUrlResult{}`. -/
  UnmarshalQRCodeUrl : Bytes → Except GoError (LoginHttpResult QRCodeUrlResult)
  /-- Go `json.Unmarshal(body, r)` with `r.Data = &QRCodeLoginResult{}`. -/
  UnmarshalQRCodeLogin : Bytes → Except GoError (LoginHttpResult QRCodeLoginResult)
  /-- Go `ids.GetUniqueId("", 32)`. -/
  GetUniqueId : Outcome GoString
  /-- Go `parseHost` of `net/url`: the host that `url.Parse` makes of the text of a host and
  port, or its error. Which texts are accepted depends on the release of Go. -/
  parseHost : GoString → Except GoError GoString

/-- Request headers common to the three calls. -/
def requestHeader (env : Env) : List (GoString × GoString) :=
  [(str "accept", str "application/json, text/plain, */*"),
   (str "content-type", str "application/json;charset=UTF-8"),
   (str "user-agent", str "aliyunpan/" ++ env.AppVersion)]

/-- Address requested by `GetQRCodeLoginUrl`; the IP address is 127.0.0.1 when its lookup
fails. -/
def GetQRCodeLoginUrl.fullUrl (env : Env) (h : LoginHelper) (keyStr : GoString) : GoString :=
  let ipAddr :=
    match env.IPInfoFromTechainBaidu with
    | .ok ip => ip
    | .error _ => str "127.0.0.1"
  h.webHost ++ str "/auth/tickstep/aliyunpan/token/qrcode/create?ip=" ++ ipAddr
    ++ str "&os=" ++ env.GOOS ++ str "&arch=" ++ env.GOARCH ++ str "&version=" ++ env.AppVersion
    ++ str "&key=" ++ keyStr

/-- Address requested by `GetQRCodeLoginResult`. -/
def GetQRCodeLoginResult.fullUrl (h : LoginHelper) (tokenId : GoString) : GoString :=
  h.webHost ++ str "/auth/tickstep/aliyunpan/token/qrcode/result?tokenId=" ++ tokenId

/-- Address requested by `GetRefreshToken`. -/
def GetRefreshToken.fullUrl (h : LoginHelper) (tokenId : GoString) : GoString :=
  h.webHost ++ str "/auth/tickstep/aliyunpan/token/qrcode/retrieve?tokenId=" ++ tokenId

/-- GetQRCodeLoginUrl 获取登录二维码链接 -/
def GetQRCodeLoginUrl (env : Env) (h : LoginHelper) (keyStr : GoString) :
    Outcome (Option QRCodeUrlResult × Option GoError) :=
  -- request
  match env.Fetch (str "GET") (GetQRCodeLoginUrl.fullUrl env h keyStr) (requestHeader env) with
  | .error err => .ret (none, some err)
  | .ok body =>
    -- parse result
    match env.UnmarshalQRCodeUrl body with
    | .error err2 => .ret (none, some err2)
    | .ok r =>
      if r.Code ≠ 0 then .ret (none, some (fmt.Errorf r.Msg))
      else
        match r.Data with
        | none => .panic "interface conversion: interface is nil, not *panlogin.QRCodeUrlResult"
        | some token =>
          if token.TokenUrl.length > 0 then
            match url.Parse env.parseHost token.TokenUrl with
            | .error err => .ret (none, some err)
            | .ok u =>
              let m := (url.ParseQuery u.RawQuery).1
              match m.get (str "tokenId") with
              | [] => .panic "runtime error: index out of range [0] with length 0"
              | v :: _ => .ret (some { token with TokenId := v }, none)
          else .ret (some token, none)

/-- GetQRCodeLoginResult 获取二维码登录结果 -/
def GetQRCodeLoginResult (env : Env) (h : LoginHelper) (tokenId : GoString) :
    Outcome (Option QRCodeLoginResult × Option GoError) :=
  -- request
  match env.Fetch (str "GET") (GetQRCodeLoginResult.fullUrl h tokenId) (requestHeader env) with
  | .error err => .ret (none, some err)
  | .ok body =>
    -- parse result
    match env.UnmarshalQRCodeLogin body with
    | .error err2 => .ret (none, some err2)
    | .ok r =>
      if r.Code ≠ 0 then .ret (none, some (fmt.Errorf r.Msg))
      else
        match r.Data with
        | none => .panic "interface conversion: interface is nil, not *panlogin.QRCodeLoginResult"
        | some res => .ret (some res, none)

/-- GetRefreshToken 获取Token -/
def GetRefreshToken (env : Env) (h : LoginHelper) (tokenId : GoString) :
    Outcome (Option QRCodeLoginResult × Option GoError) :=
  -- request
  match env.Fetch (str "GET") (GetRefreshToken.fullUrl h tokenId) (requestHeader env) with
  | .error err => .ret (none, some err)
  | .ok body =>
    -- parse result
    match env.UnmarshalQRCodeLogin body with
    | .error err2 => .ret (none, some err2)
    | .ok r =>
      if r.Code ≠ 0 then .ret (none, some (fmt.Errorf r.Msg))
      else
        match r.Data with
        | none => .panic "interface conversion: interface is nil, not *panlogin.QRCodeLoginResult"
        | some res => .ret (some res, none)

/-- Key string in use: the caller's, or the machine identifier when the caller's is empty. -/
def effectiveKey (env : Env) (keyStr : GoString) : Outcome GoString :=
  if keyStr.length = 0 then env.GetUniqueId else .ret keyStr

/-- Key handed to `crypto.DecryptAES`: `key := []byte(keyStr)`, cut to 16 bytes when longer. -/
def cipherKey (keyStr : GoString) : Bytes :=
  if keyStr.length > 16 then keyStr.take 16 else keyStr

/-- Body of `ParseSecureRefreshToken`, before the deferred function runs. -/
def ParseSecureRefreshToken.body (env : Env) (keyStr secureRefreshToken : GoString) :
    Outcome (GoString × Option GoError) := do
  let keyStr ← effectiveKey env keyStr
  if secureRefreshToken = [] then return ([], none)
  let d := (hex.DecodeString secureRefreshToken).1
  -- use the machine unique id as the key
  -- but in some OS, this key will be changed if you reinstall the OS
  let key := cipherKey keyStr
  let re ← crypto.DecryptAES d key
  match re with
  | .error _ => return ([], none)
  | .ok r => return (r, none)

/-- ParseSecureRefreshToken 解密Token. The deferred function recovers from any panic of the
body; the results are unnamed, so the call then returns their zero values. -/
def ParseSecureRefreshToken (env : Env) (keyStr secureRefreshToken : GoString) :
    Outcome (GoString × Option GoError) :=
  match ParseSecureRefreshToken.body env keyStr secureRefreshToken with
  | .panic _ => .ret ([], none)
  | .ret v => .ret v

/-! ## Surroundings for worked examples -/

/-- Host of the worked examples: a name of letters, digits, hyphens and dots, without a port,
is the host as it stands, as in every release of Go; the examples use no other host, and any
other is refused here. -/
def Env.plainHost (host : GoString) : Except GoError GoString :=
  if host.all (fun c => url.isAlnum c || c = chr '-' || c = chr '.') then .ok host
  else .error (.external (str "host outside the worked examples"))

/-- Surroundings in which the remote service is reached and its answer decodes to the given
envelopes; the machine identifier is a fixed text of 32 bytes. -/
def Env.answering (urlAnswer : LoginHttpResult QRCodeUrlResult)
    (loginAnswer : LoginHttpResult QRCodeLoginResult) : Env where
  IPInfoFromTechainBaidu := .error (.external (str "lookup failed"))
  GOOS := str "linux"
  GOARCH := str "amd64"
  AppVersion := str "v0.0.0"
  Fetch := fun _ _ _ => .ok []
  UnmarshalQRCodeUrl := fun _ => .ok urlAnswer
  UnmarshalQRCodeLogin := fun _ => .ok loginAnswer
  GetUniqueId := .ret (str "0123456789abcdef0123456789abcdef")
  parseHost := Env.plainHost

/-- Surroundings of the worked examples on `ParseSecureRefreshToken`, which asks nothing of
the remote service. -/
def Env.offline : Env := Env.answering ⟨0, [], none⟩ ⟨0, [], none⟩

/-! # Verification -/
namespace aes

theorem byte_xor_val (a b : Byte) : (a ^^^ b).val = a.val ^^^ b.val := by
  show (a.val ^^^ b.val) % 256 = _
  exact Nat.mod_eq_of_lt (Nat.xor_lt_two_pow (n := 8) a.isLt b.isLt)

theorem byte_xor_assoc (a b c : Byte) : (a ^^^ b) ^^^ c = a ^^^ (b ^^^ c) := by
  apply Fin.ext; simp [byte_xor_val, Nat.xor_assoc]

theorem byte_xor_comm (a b : Byte) : a ^^^ b = b ^^^ a := by
  apply Fin.ext; simp [byte_xor_val, Nat.xor_comm]

theorem byte_xor_self (a : Byte) : a ^^^ a = 0 := by
  apply Fin.ext; simp [byte_xor_val]

theorem byte_xor_zero (a : Byte) : a ^^^ 0 = a := by
  apply Fin.ext; simp [byte_xor_val]

theorem byte_zero_xor (a : Byte) : 0 ^^^ a = a := by
  apply Fin.ext; simp [byte_xor_val]

theorem byte_xor_cancel (a k : Byte) : (a ^^^ k) ^^^ k = a := by
  rw [byte_xor_assoc, byte_xor_self, byte_xor_zero]

/-- Interchange of two sums of four terms. -/
theorem byte_xor_interchange (a b c d e f g h : Byte) :
    (a ^^^ e) ^^^ (b ^^^ f) ^^^ (c ^^^ g) ^^^ (d ^^^ h)
      = (a ^^^ b ^^^ c ^^^ d) ^^^ (e ^^^ f ^^^ g ^^^ h) := by
  apply Fin.ext
  simp only [byte_xor_val]
  ac_rfl

theorem AddAt.xor {f : Byte → Byte} {b c : Byte} (hb : AddAt f b) (hc : AddAt f c) :
    AddAt f (b ^^^ c) := by
  intro a
  rw [← byte_xor_assoc, hc, hb, hc b, byte_xor_assoc]

set_option maxRecDepth 100000 in
theorem byte_eq_bits : ∀ b : Byte,
    b = bitAt b 0 ^^^ bitAt b 1 ^^^ bitAt b 2 ^^^ bitAt b 3 ^^^ bitAt b 4 ^^^ bitAt b 5
      ^^^ bitAt b 6 ^^^ bitAt b 7 := by decide!

set_option maxRecDepth 100000 in
theorem xtime_addAt_basis : ∀ i : Fin 8, ∀ a : Byte,
    xtime (a ^^^ Fin.ofNat (2 ^ i.val)) = xtime a ^^^ xtime (Fin.ofNat (2 ^ i.val)) := by decide!

theorem xtime_zero : xtime 0 = 0 := by decide

theorem xtime_addAt_bit (b : Byte) (i : Fin 8) : AddAt xtime (bitAt b i.val) := by
  intro a
  unfold bitAt
  split
  · exact xtime_addAt_basis i a
  · rw [byte_xor_zero, xtime_zero, byte_xor_zero]

theorem xtime_xor (a b : Byte) : xtime (a ^^^ b) = xtime a ^^^ xtime b := by
  have h : AddAt xtime b := by
    rw [byte_eq_bits b]
    exact ((((((((xtime_addAt_bit b 0).xor (xtime_addAt_bit b 1)).xor (xtime_addAt_bit b 2)).xor
      (xtime_addAt_bit b 3)).xor (xtime_addAt_bit b 4)).xor (xtime_addAt_bit b 5)).xor
      (xtime_addAt_bit b 6)).xor (xtime_addAt_bit b 7))
  exact h a

theorem mul2_xor (a b : Byte) : mul2 (a ^^^ b) = mul2 a ^^^ mul2 b := xtime_xor a b

theorem byte_xor_interchange2 (a b c d : Byte) :
    (a ^^^ c) ^^^ (b ^^^ d) = (a ^^^ b) ^^^ (c ^^^ d) := by
  apply Fin.ext
  simp only [byte_xor_val]
  ac_rfl

theorem byte_xor_interchange3 (a b c d e f : Byte) :
    (a ^^^ d) ^^^ (b ^^^ e) ^^^ (c ^^^ f) = (a ^^^ b ^^^ c) ^^^ (d ^^^ e ^^^ f) := by
  apply Fin.ext
  simp only [byte_xor_val]
  ac_rfl

theorem mul3_xor (a b : Byte) : mul3 (a ^^^ b) = mul3 a ^^^ mul3 b := by
  simp only [mul3, xtime_xor, byte_xor_interchange2]

theorem mul9_xor (a b : Byte) : mul9 (a ^^^ b) = mul9 a ^^^ mul9 b := by
  simp only [mul9, xtime_xor, byte_xor_interchange2]

theorem mul11_xor (a b : Byte) : mul11 (a ^^^ b) = mul11 a ^^^ mul11 b := by
  simp only [mul11, xtime_xor, byte_xor_interchange3]

theorem mul13_xor (a b : Byte) : mul13 (a ^^^ b) = mul13 a ^^^ mul13 b := by
  simp only [mul13, xtime_xor, byte_xor_interchange3]

theorem mul14_xor (a b : Byte) : mul14 (a ^^^ b) = mul14 a ^^^ mul14 b := by
  simp only [mul14, xtime_xor, byte_xor_interchange3]

theorem mixColumn_xor (u v : Word) : mixColumn (u.xor v) = (mixColumn u).xor (mixColumn v) := by
  simp only [mixColumn, Word.xor, mul2_xor, mul3_xor, byte_xor_interchange]

theorem invMixColumn_xor (u v : Word) :
    invMixColumn (u.xor v) = (invMixColumn u).xor (invMixColumn v) := by
  simp only [invMixColumn, Word.xor, mul9_xor, mul11_xor, mul13_xor, mul14_xor,
    byte_xor_interchange]

set_option maxRecDepth 100000 in
theorem invMixColumn_mixColumn_b0 : ∀ a : Byte,
    invMixColumn (mixColumn ⟨a, 0, 0, 0⟩) = ⟨a, 0, 0, 0⟩ := by decide!

set_option maxRecDepth 100000 in
theorem invMixColumn_mixColumn_b1 : ∀ a : Byte,
    invMixColumn (mixColumn ⟨0, a, 0, 0⟩) = ⟨0, a, 0, 0⟩ := by decide!

set_option maxRecDepth 100000 in
theorem invMixColumn_mixColumn_b2 : ∀ a : Byte,
    invMixColumn (mixColumn ⟨0, 0, a, 0⟩) = ⟨0, 0, a, 0⟩ := by decide!

set_option maxRecDepth 100000 in
theorem invMixColumn_mixColumn_b3 : ∀ a : Byte,
    invMixColumn (mixColumn ⟨0, 0, 0, a⟩) = ⟨0, 0, 0, a⟩ := by decide!

theorem word_split (w : Word) :
    w = (((⟨w.b0, 0, 0, 0⟩ : Word).xor ⟨0, w.b1, 0, 0⟩).xor ⟨0, 0, w.b2, 0⟩).xor
      ⟨0, 0, 0, w.b3⟩ := by
  cases w
  simp [Word.xor, byte_xor_zero, byte_zero_xor]

theorem invMixColumn_mixColumn (w : Word) : invMixColumn (mixColumn w) = w := by
  conv => lhs; rw [word_split w]
  simp only [mixColumn_xor, invMixColumn_xor, invMixColumn_mixColumn_b0,
    invMixColumn_mixColumn_b1, invMixColumn_mixColumn_b2, invMixColumn_mixColumn_b3]
  exact (word_split w).symm

set_option maxRecDepth 100000 in
theorem invSbox_sbox : ∀ b : Byte, invSbox (sbox b) = b := by decide!

theorem invSubBytes_subBytes (s : State) : invSubBytes (subBytes s) = s := by
  cases s with
  | mk c0 c1 c2 c3 =>
    cases c0; cases c1; cases c2; cases c3
    simp [invSubBytes, subBytes, State.map, Word.map, invSbox_sbox]

theorem invShiftRows_shiftRows (s : State) : invShiftRows (shiftRows s) = s := by
  cases s with
  | mk c0 c1 c2 c3 =>
    cases c0; cases c1; cases c2; cases c3
    rfl

theorem invMixColumns_mixColumns (s : State) : invMixColumns (mixColumns s) = s := by
  cases s
  simp [invMixColumns, mixColumns, State.map, invMixColumn_mixColumn]

theorem Word.xor_cancel (w k : Word) : (w.xor k).xor k = w := by
  cases w; cases k
  simp [Word.xor, byte_xor_cancel]

theorem addRoundKey_cancel (s k : State) : addRoundKey (addRoundKey s k) k = s := by
  cases s; cases k
  simp [addRoundKey, Word.xor_cancel]

theorem invRounds_rounds (rks : List State) (s : State) : invRounds rks (rounds rks s) = s := by
  induction rks generalizing s with
  | nil => rfl
  | cons rk rest ih =>
    cases rest with
    | nil =>
      simp [rounds, invRounds, addRoundKey_cancel, invShiftRows_shiftRows, invSubBytes_subBytes]
    | cons rk2 rest2 =>
      show invSubBytes (invShiftRows (invMixColumns (addRoundKey (invRounds (rk2 :: rest2)
        (rounds (rk2 :: rest2) (addRoundKey (mixColumns (shiftRows (subBytes s))) rk))) rk))) = s
      rw [ih]
      simp [addRoundKey_cancel, invMixColumns_mixColumns, invShiftRows_shiftRows,
        invSubBytes_subBytes]

theorem decryptState_encryptState (rks : List State) (s : State) :
    decryptState rks (encryptState rks s) = s := by
  cases rks with
  | nil => rfl
  | cons rk0 rest => simp [decryptState, encryptState, invRounds_rounds, addRoundKey_cancel]

theorem State.toBytes_length (s : State) : s.toBytes.length = 16 := rfl

theorem State.ofBytes_toBytes (s : State) : State.ofBytes s.toBytes = s := by
  cases s with
  | mk c0 c1 c2 c3 =>
    cases c0; cases c1; cases c2; cases c3
    rfl

theorem State.toBytes_ofBytes (b : Bytes) (h : b.length = 16) : (State.ofBytes b).toBytes = b := by
  match b, h with
  | [_, _, _, _, _, _, _, _, _, _, _, _, _, _, _, _], _ => rfl

theorem Block.Encrypt_length (c : Block) (src : Bytes) : (c.Encrypt src).length = 16 := rfl

theorem Block.Decrypt_length (c : Block) (src : Bytes) : (c.Decrypt src).length = 16 := rfl

theorem Block.Decrypt_Encrypt (c : Block) (src : Bytes) (h : src.length = 16) :
    c.Decrypt (c.Encrypt src) = src := by
  simp [Block.Decrypt, Block.Encrypt, State.ofBytes_toBytes, decryptState_encryptState,
    State.toBytes_ofBytes src h]

end aes

/-! ## Known answers of the cipher (FIPS 197, appendix C) -/

namespace aes

theorem Encrypt_fips197_aes128 :
    Block.Encrypt ⟨expandKey (hex.DecodeString (str "000102030405060708090a0b0c0d0e0f")).1⟩
      (hex.DecodeString (str "00112233445566778899aabbccddeeff")).1
      = (hex.DecodeString (str "69c4e0d86a7b0430d8cdb78070b4c55a")).1 := by
  decide!

theorem Encrypt_fips197_aes192 :
    Block.Encrypt
      ⟨expandKey (hex.DecodeString (str "000102030405060708090a0b0c0d0e0f1011121314151617")).1⟩
      (hex.DecodeString (str "00112233445566778899aabbccddeeff")).1
      = (hex.DecodeString (str "dda97ca4864cdfe06eaf70a0ec0d7191")).1 := by
  decide!

theorem Encrypt_fips197_aes256 :
    Block.Encrypt
      ⟨expandKey (hex.DecodeString
        (str "000102030405060708090a0b0c0d0e0f101112131415161718191a1b1c1d1e1f")).1⟩
      (hex.DecodeString (str "00112233445566778899aabbccddeeff")).1
      = (hex.DecodeString (str "8ea2b7ca516745bfeafc49904b496089")).1 := by
  decide!

end aes


namespace cipher

theorem xorBytes_length (a b : Bytes) : (xorBytes a b).length = min a.length b.length := by
  simp [xorBytes]

theorem xorBytes_cancel (a iv : Bytes) (h : a.length = iv.length) :
    xorBytes (xorBytes a iv) iv = a := by
  induction a generalizing iv with
  | nil => cases iv <;> simp [xorBytes]
  | cons x xs ih =>
    cases iv with
    | nil => simp at h
    | cons y ys =>
      simp only [List.length_cons, Nat.add_right_cancel_iff] at h
      have := ih ys h
      simp only [xorBytes] at this ⊢
      simp [List.zipWith, aes.byte_xor_cancel, this]

theorem encryptBlocks_length (b : aes.Block) (n : Nat) (iv src : Bytes) :
    (encryptBlocks b n iv src).length = 16 * n := by
  induction n generalizing iv src with
  | zero => rfl
  | succ n ih =>
    simp only [encryptBlocks, List.length_append, aes.Block.Encrypt_length, ih]
    omega

theorem decryptBlocks_encryptBlocks (b : aes.Block) (n : Nat) (iv src : Bytes)
    (hiv : iv.length = 16) (hsrc : src.length = 16 * n) :
    decryptBlocks b n iv (encryptBlocks b n iv src) = src := by
  induction n generalizing iv src with
  | zero =>
    have : src = [] := List.eq_nil_of_length_eq_zero (by simpa using hsrc)
    simp [decryptBlocks, this]
  | succ n ih =>
    have htake : (src.take 16).length = 16 := by simp [List.length_take]; omega
    have hx : (xorBytes (src.take 16) iv).length = 16 := by
      rw [xorBytes_length, htake, hiv]; rfl
    have hc : (b.Encrypt (xorBytes (src.take 16) iv)).length = 16 := aes.Block.Encrypt_length _ _
    simp only [encryptBlocks, decryptBlocks]
    rw [List.take_left' hc, List.drop_left' hc, aes.Block.Decrypt_Encrypt _ _ hx,
      xorBytes_cancel _ _ (by rw [htake, hiv]), ih _ _ hc (by simp [List.length_drop]; omega)]
    exact List.take_append_drop 16 src

end cipher

namespace crypto

theorem PKCS5Padding_length (data : Bytes) :
    (PKCS5Padding data 16).length = 16 * (data.length / 16 + 1) := by
  simp only [PKCS5Padding, List.length_append, List.length_replicate]
  omega

theorem PKCS5UnPadding_PKCS5Padding (data : Bytes) :
    PKCS5UnPadding (PKCS5Padding data 16) = .ret data := by
  have hp : 0 < 16 - data.length % 16 := by omega
  have hp2 : 16 - data.length % 16 ≤ 16 := by omega
  have hval : (Fin.ofNat (16 - data.length % 16) : Byte).val = 16 - data.length % 16 := by
    show (16 - data.length % 16) % 256 = _
    omega
  have hlast : (PKCS5Padding data 16).getLast? = some (Fin.ofNat (16 - data.length % 16)) := by
    simp only [PKCS5Padding]
    obtain ⟨k, hk⟩ : ∃ k, 16 - data.length % 16 = k + 1 := ⟨16 - data.length % 16 - 1, by omega⟩
    rw [hk, List.replicate_succ', ← List.append_assoc, List.getLast?_append]
    simp
  unfold PKCS5UnPadding
  rw [hlast]
  simp only [hval]
  have hlen : (PKCS5Padding data 16).length = data.length + (16 - data.length % 16) := by
    simp [PKCS5Padding]
  rw [hlen, if_neg (by omega)]
  simp [PKCS5Padding]

end crypto

namespace hex

theorem fromHexChar_hextable (n : Nat) (h : n < 16) : fromHexChar (hextable n) = some n := by
  have : ∀ m : Fin 16, fromHexChar (hextable m.val) = some m.val := by decide
  exact this ⟨n, h⟩

theorem DecodeString_EncodeToString (c : Bytes) : DecodeString (EncodeToString c) = (c, none) := by
  induction c with
  | nil => rfl
  | cons v rest ih =>
    have h1 : v.val / 16 < 16 := by have := v.isLt; omega
    have h2 : v.val % 16 < 16 := by omega
    have hv : (Fin.ofNat (v.val / 16 * 16 + v.val % 16) : Byte) = v := by
      apply Fin.ext
      show (v.val / 16 * 16 + v.val % 16) % 256 = v.val
      have := v.isLt
      omega
    simp only [EncodeToString, DecodeString, fromHexChar_hextable _ h1, fromHexChar_hextable _ h2,
      ih, hv]

theorem EncodeToString_eq_nil (c : Bytes) : EncodeToString c = [] ↔ c = [] := by
  cases c <;> simp [EncodeToString]

end hex

namespace crypto

theorem NewCipher_of_length_16 (key : Bytes) (h : key.length = 16) :
    aes.NewCipher key = .ok ⟨aes.expandKey key⟩ := by
  simp [aes.NewCipher, h]

theorem NewCipher_of_short (key : Bytes) (h : key.length < 16) :
    aes.NewCipher key = .error (.keySizeError key.length) := by
  have : ¬ (key.length = 16 ∨ key.length = 24 ∨ key.length = 32) := by omega
  simp [aes.NewCipher, this]

/-- Ciphertext of `EncryptAES` under a key of 16 bytes. -/
theorem EncryptAES_of_length_16 (origData key : Bytes) (h : key.length = 16) :
    EncryptAES origData key = .ret (.ok (cipher.encryptBlocks ⟨aes.expandKey key⟩
      (origData.length / 16 + 1) key (PKCS5Padding origData 16))) := by
  have hlen := PKCS5Padding_length origData
  simp only [EncryptAES, NewCipher_of_length_16 key h, aes.BlockSize,
    cipher.NewCBCEncrypter, cipher.BlockMode.EncryptBlocks, bind, Outcome.bind, h, hlen]
  simp [pure]

/-- Plaintext of `DecryptAES` under a key of 16 bytes, before the padding is removed. -/
theorem DecryptAES_of_length_16 (eb key : Bytes) (h : key.length = 16)
    (heb : eb.length % 16 = 0) :
    DecryptAES eb key = (PKCS5UnPadding (cipher.decryptBlocks ⟨aes.expandKey key⟩
      (eb.length / 16) key eb)).bind (fun r => .ret (.ok r)) := by
  simp only [DecryptAES, NewCipher_of_length_16 key h, aes.BlockSize,
    cipher.NewCBCDecrypter, cipher.BlockMode.DecryptBlocks, bind, Outcome.bind, h, heb]
  simp [pure]

theorem DecryptAES_of_short (eb key : Bytes) (h : key.length < 16) :
    DecryptAES eb key = .ret (.error (.keySizeError key.length)) := by
  simp [DecryptAES, NewCipher_of_short key h]

theorem DecryptAES_EncryptAES (origData key : Bytes) (h : key.length = 16) :
    ∃ c, EncryptAES origData key = .ret (.ok c) ∧ c ≠ [] ∧ DecryptAES c key = .ret (.ok origData) := by
  refine ⟨_, EncryptAES_of_length_16 origData key h, ?_, ?_⟩
  · intro hc
    have := congrArg List.length hc
    rw [cipher.encryptBlocks_length] at this
    simp at this
  · have hl := cipher.encryptBlocks_length ⟨aes.expandKey key⟩ (origData.length / 16 + 1) key
      (PKCS5Padding origData 16)
    rw [DecryptAES_of_length_16 _ _ h (by rw [hl]; omega), hl]
    have : 16 * (origData.length / 16 + 1) / 16 = origData.length / 16 + 1 := by omega
    rw [this, cipher.decryptBlocks_encryptBlocks _ _ _ _ h (PKCS5Padding_length origData),
      PKCS5UnPadding_PKCS5Padding]
    rfl

end crypto

theorem cipherKey_of_ge (keyStr : GoString) (h : 16 ≤ keyStr.length) :
    cipherKey keyStr = keyStr.take 16 := by
  unfold cipherKey
  split
  · rfl
  · have h16 : keyStr.length = 16 := by omega
    rw [← h16]; exact (List.take_length keyStr).symm

theorem cipherKey_of_lt (keyStr : GoString) (h : keyStr.length < 16) :
    cipherKey keyStr = keyStr := by
  unfold cipherKey
  rw [if_neg (by omega)]

/-- Result of the call in terms of the decryption, for a key and a token that are not empty. -/
theorem ParseSecureRefreshToken_eq (env : Env) (keyStr tok : GoString)
    (hk : keyStr.length ≠ 0) (ht : tok ≠ []) :
    ParseSecureRefreshToken env keyStr tok =
      match crypto.DecryptAES (hex.DecodeString tok).1 (cipherKey keyStr) with
      | .ret (.ok r) => .ret (r, none)
      | _ => .ret ([], none) := by
  simp only [ParseSecureRefreshToken, ParseSecureRefreshToken.body, effectiveKey, hk, ht,
    if_false, bind, Outcome.bind]
  cases crypto.DecryptAES (hex.DecodeString tok).1 (cipherKey keyStr) with
  | panic r => rfl
  | ret re => cases re <;> rfl

namespace hex

theorem DecodeString_EncodeToString_append_invalid (c : Bytes) (z : Byte)
    (hz : fromHexChar z = none) :
    DecodeString (EncodeToString c ++ [z]) = (c, some (.invalidByteError z)) := by
  induction c with
  | nil => simp [EncodeToString, DecodeString, hz]
  | cons v rest ih =>
    have h1 : v.val / 16 < 16 := by have := v.isLt; omega
    have h2 : v.val % 16 < 16 := by omega
    have hv : (Fin.ofNat (v.val / 16 * 16 + v.val % 16) : Byte) = v := by
      apply Fin.ext
      show (v.val / 16 * 16 + v.val % 16) % 256 = v.val
      have := v.isLt
      omega
    have ih2 : DecodeString (List.append (EncodeToString rest) [z])
        = (rest, some (.invalidByteError z)) := ih
    simp only [EncodeToString, List.cons_append, DecodeString, fromHexChar_hextable _ h1,
      fromHexChar_hextable _ h2, ih2, hv]

end hex

/-- A byte that is not a hexadecimal digit, written after the hex text of a ciphertext, makes
the token invalid, and the call still returns the plaintext of the ciphertext. -/
theorem ParseSecureRefreshToken_decrypts_before_invalid_byte (env : Env)
    (keyStr P : GoString) (z : Byte) (h : 16 ≤ keyStr.length) (hz : hex.fromHexChar z = none) :
    ∃ c, crypto.EncryptAES P (keyStr.take 16) = .ret (.ok c) ∧
      (hex.DecodeString (hex.EncodeToString c ++ [z])).2 = some (.invalidByteError z) ∧
      ParseSecureRefreshToken env keyStr (hex.EncodeToString c ++ [z]) = .ret (P, none) := by
  have h16 : (keyStr.take 16).length = 16 := by simp [List.length_take]; omega
  obtain ⟨c, henc, _, hdec⟩ := crypto.DecryptAES_EncryptAES P (keyStr.take 16) h16
  refine ⟨c, henc, by rw [hex.DecodeString_EncodeToString_append_invalid c z hz], ?_⟩
  rw [ParseSecureRefreshToken_eq env keyStr _ (by omega) (by simp),
    hex.DecodeString_EncodeToString_append_invalid c z hz, cipherKey_of_ge keyStr h, hdec]

/-! ## Claims on `ParseSecureRefreshToken` -/

/-- C2: `ParseSecureRefreshToken` fails soft to empty. For every key string and every secure
token the call returns, with a nil error, and never panics; the plaintext returned is empty
whenever the token is empty, whenever the body panics (in the fallback id generation, the
decryption or the unpadding), and whenever the decryption reports an error. -/
theorem C2_fails_soft_to_empty (env : Env) (keyStr tok : GoString) :
    ∃ s, ParseSecureRefreshToken env keyStr tok = .ret (s, none) ∧
      (tok = [] → s = []) ∧
      ((∃ reason, ParseSecureRefreshToken.body env keyStr tok = .panic reason) → s = []) ∧
      (∀ k e, effectiveKey env keyStr = .ret k →
        crypto.DecryptAES (hex.DecodeString tok).1 (cipherKey k) = .ret (.error e) → s = []) := by
  unfold ParseSecureRefreshToken ParseSecureRefreshToken.body
  cases hk : effectiveKey env keyStr with
  | panic r => exact ⟨[], rfl, fun _ => rfl, fun _ => rfl, fun _ _ _ _ => rfl⟩
  | ret k =>
    by_cases ht : tok = []
    · subst ht
      exact ⟨[], rfl, fun _ => rfl, fun _ => rfl, fun _ _ _ _ => rfl⟩
    · simp only [bind, Outcome.bind, ht, if_false]
      cases hd : crypto.DecryptAES (hex.DecodeString tok).1 (cipherKey k) with
      | panic r => exact ⟨[], rfl, fun _ => rfl, fun _ => rfl, fun _ _ _ _ => rfl⟩
      | ret re =>
        cases re with
        | error e => exact ⟨[], rfl, fun _ => rfl, fun _ => rfl, fun _ _ _ _ => rfl⟩
        | ok r =>
          refine ⟨r, rfl, fun h => h.elim, ?_, ?_⟩
          · rintro ⟨reason, hr⟩
            simp [pure] at hr
          · intro k2 e hk2 hd2
            cases hk2
            rw [hd] at hd2
            cases hd2

/-- The deferred function is put to use: under a key other than the one that encrypted, the
body panics when it removes the padding, and the call returns the empty plaintext. -/
theorem ParseSecureRefreshToken_recovers_example :
    ParseSecureRefreshToken.body Env.offline (str "1123456789abcdef")
      (str "7df2d91486ac9457f82542103857e6fe67fece43d9e01a20622ea8cddd106210")
      = .panic "runtime error: slice bounds out of range" ∧
    ParseSecureRefreshToken Env.offline (str "1123456789abcdef")
      (str "7df2d91486ac9457f82542103857e6fe67fece43d9e01a20622ea8cddd106210")
      = .ret ([], none) := by
  decide!

/-- C3: round trip. For every key string of at least 16 bytes and every plaintext `P`, the
encryption of `P` under the first 16 bytes of the key yields a ciphertext `c`, and
`ParseSecureRefreshToken(key, hexEncode(c))` returns `(P, nil)`. -/
theorem C3_round_trip (env : Env) (keyStr P : GoString) (h : 16 ≤ keyStr.length) :
    ∃ c, crypto.EncryptAES P (keyStr.take 16) = .ret (.ok c) ∧
      ParseSecureRefreshToken env keyStr (hex.EncodeToString c) = .ret (P, none) := by
  have h16 : (keyStr.take 16).length = 16 := by simp [List.length_take]; omega
  obtain ⟨c, henc, hne, hdec⟩ := crypto.DecryptAES_EncryptAES P (keyStr.take 16) h16
  refine ⟨c, henc, ?_⟩
  rw [ParseSecureRefreshToken_eq env keyStr _ (by omega)
    (by rw [Ne, hex.EncodeToString_eq_nil]; exact hne),
    hex.DecodeString_EncodeToString, cipherKey_of_ge keyStr h, hdec]

theorem C3_round_trip_witness :
    16 ≤ (str "0123456789abcdefXYZ").length ∧
    ∃ c, crypto.EncryptAES (str "hello") ((str "0123456789abcdefXYZ").take 16) = .ret (.ok c) ∧
      ParseSecureRefreshToken Env.offline (str "0123456789abcdefXYZ") (hex.EncodeToString c)
        = .ret (str "hello", none) :=
  ⟨by decide, C3_round_trip Env.offline (str "0123456789abcdefXYZ") (str "hello") (by decide)⟩

/-- C4 (the code departs from the claim): the token below is the hex text of a ciphertext
followed by `zz`, so `hex.DecodeString` reports an invalid byte; the error is dropped, the
bytes decoded before it are decrypted, and the call returns the plaintext, not the empty
string. -/
theorem C4_invalid_hex_decrypts_decoded_part :
    (hex.DecodeString
      (str "7df2d91486ac9457f82542103857e6fe67fece43d9e01a20622ea8cddd106210zz")).2
      = some (.invalidByteError (chr 'z')) ∧
    ParseSecureRefreshToken Env.offline (str "0123456789abcdef")
      (str "7df2d91486ac9457f82542103857e6fe67fece43d9e01a20622ea8cddd106210zz")
      = .ret (str "hello world, this is a token", none) := by
  decide!

/-- C5 (the code departs from the claim): a ciphertext of `refresh-token` made under the key
`machine-id-00000` is unwrapped with the key `machine-id-10079`. The decryption under the
changed key is a block of garbage that ends in the byte 14 and is no valid padding; the
padding is removed without a check, so fourteen bytes are dropped and the call returns two
bytes of garbage with a nil error, not the empty plaintext. -/
theorem C5_changed_key_returns_garbage :
    16 ≤ (str "machine-id-00000").length ∧ 16 ≤ (str "machine-id-10079").length ∧
    (str "machine-id-00000").take 16 ≠ (str "machine-id-10079").take 16 ∧
    crypto.EncryptAES (str "refresh-token") ((str "machine-id-00000").take 16)
      = .ret (.ok (hex.DecodeString (str "8b70dea22c231ef109fb06fc2c35a9de")).1) ∧
    cipher.decryptBlocks ⟨aes.expandKey (str "machine-id-10079")⟩ 1 (str "machine-id-10079")
        (hex.DecodeString (str "8b70dea22c231ef109fb06fc2c35a9de")).1
      = [26, 13, 235, 2, 253, 245, 186, 125, 48, 56, 71, 137, 138, 32, 214, 14] ∧
    ParseSecureRefreshToken Env.offline (str "machine-id-10079")
      (str "8b70dea22c231ef109fb06fc2c35a9de") = .ret ([26, 13], none) := by
  decide!

/-- C9 (the claim fails): with the key `short` and the token `00` the key handed to the
decryption has 5 bytes, not 16, and the call reports no error. -/
theorem C9_counterexample :
    str "short" ≠ [] ∧ (str "short").length < 16 ∧ str "00" ≠ [] ∧
    (cipherKey (str "short")).length = 5 ∧
    ParseSecureRefreshToken Env.offline (str "short") (str "00") = .ret ([], none) := by
  decide

/-- C9, amended: for every non-empty key string of fewer than 16 bytes and every non-empty
secure token, the key handed to the decryption is the key string itself, shorter than 16
bytes; the cipher rejects it with a key size error, nothing is decrypted, and
`ParseSecureRefreshToken` returns the empty plaintext with a nil error. -/
theorem C9_short_key_rejected_silently (env : Env) (keyStr tok : GoString)
    (h0 : keyStr ≠ []) (h : keyStr.length < 16) (ht : tok ≠ []) :
    cipherKey keyStr = keyStr ∧
    crypto.DecryptAES (hex.DecodeString tok).1 (cipherKey keyStr)
      = .ret (.error (.keySizeError keyStr.length)) ∧
    ParseSecureRefreshToken env keyStr tok = .ret ([], none) := by
  have hk := cipherKey_of_lt keyStr h
  have hd := crypto.DecryptAES_of_short (hex.DecodeString tok).1 keyStr h
  refine ⟨hk, by rw [hk]; exact hd, ?_⟩
  rw [ParseSecureRefreshToken_eq env keyStr tok (by simpa using h0) ht, hk, hd]

theorem C9_short_key_rejected_silently_witness :
    str "short" ≠ [] ∧ (str "short").length < 16 ∧ str "00" ≠ [] ∧
    cipherKey (str "short") = str "short" ∧
    crypto.DecryptAES (hex.DecodeString (str "00")).1 (cipherKey (str "short"))
      = .ret (.error (.keySizeError (str "short").length)) ∧
    ParseSecureRefreshToken Env.offline (str "short") (str "00") = .ret ([], none) :=
  ⟨by decide, by decide, by decide,
    C9_short_key_rejected_silently Env.offline (str "short") (str "00") (by decide) (by decide)
      (by decide)⟩

/-- C10: the cipher key depends only on the first 16 bytes of the key string. For every
secure token and every two key strings of at least 16 bytes that agree on their first 16
bytes, `ParseSecureRefreshToken` returns the same pair for both, and the key handed to the
decryption is exactly those 16 bytes. -/
theorem C10_only_first_16_bytes (env : Env) (tok key1 key2 : GoString)
    (h1 : 16 ≤ key1.length) (h2 : 16 ≤ key2.length) (h : key1.take 16 = key2.take 16) :
    ParseSecureRefreshToken env key1 tok = ParseSecureRefreshToken env key2 tok ∧
    cipherKey key1 = key1.take 16 ∧ cipherKey key2 = key1.take 16 ∧
    (cipherKey key1).length = 16 := by
  have c1 := cipherKey_of_ge key1 h1
  have c2 := cipherKey_of_ge key2 h2
  refine ⟨?_, c1, by rw [c2, h], by rw [c1]; simp [List.length_take]; omega⟩
  by_cases ht : tok = []
  · subst ht
    have e1 : effectiveKey env key1 = .ret key1 := by
      unfold effectiveKey; rw [if_neg (by omega)]
    have e2 : effectiveKey env key2 = .ret key2 := by
      unfold effectiveKey; rw [if_neg (by omega)]
    simp only [ParseSecureRefreshToken, ParseSecureRefreshToken.body, e1, e2, bind, Outcome.bind]
    rfl
  · rw [ParseSecureRefreshToken_eq env key1 tok (by omega) ht,
      ParseSecureRefreshToken_eq env key2 tok (by omega) ht, c1, c2, h]

theorem C10_only_first_16_bytes_witness :
    16 ≤ (str "0123456789abcdefXYZ").length ∧ 16 ≤ (str "0123456789abcdef-other").length ∧
    (str "0123456789abcdefXYZ").take 16 = (str "0123456789abcdef-other").take 16 ∧
    (ParseSecureRefreshToken Env.offline (str "0123456789abcdefXYZ") (str "ed47fee0545c3fa7")
        = ParseSecureRefreshToken Env.offline (str "0123456789abcdef-other")
            (str "ed47fee0545c3fa7") ∧
      cipherKey (str "0123456789abcdefXYZ") = (str "0123456789abcdefXYZ").take 16 ∧
      cipherKey (str "0123456789abcdef-other") = (str "0123456789abcdefXYZ").take 16 ∧
      (cipherKey (str "0123456789abcdefXYZ")).length = 16) :=
  ⟨by decide, by decide, by decide,
    C10_only_first_16_bytes Env.offline (str "ed47fee0545c3fa7") (str "0123456789abcdefXYZ")
      (str "0123456789abcdef-other") (by decide) (by decide) (by decide)⟩

/-! ## The three calls to the remote service -/

/-- An envelope with a code other than 0 makes `GetQRCodeLoginUrl` return a nil result and
the error that `fmt.Errorf` makes of the message. -/
theorem GetQRCodeLoginUrl_rejected (env : Env) (h : LoginHelper) (keyStr : GoString)
    (body : Bytes) (r : LoginHttpResult QRCodeUrlResult)
    (hf : env.Fetch (str "GET") (GetQRCodeLoginUrl.fullUrl env h keyStr) (requestHeader env)
      = .ok body)
    (hj : env.UnmarshalQRCodeUrl body = .ok r) (hc : r.Code ≠ 0) :
    GetQRCodeLoginUrl env h keyStr = .ret (none, some (.errorString (fmt.Sprintf r.Msg))) := by
  simp [GetQRCodeLoginUrl, hf, hj, hc, fmt.Errorf]

/-- An envelope with a code other than 0 makes `GetQRCodeLoginResult` return a nil result
and the error that `fmt.Errorf` makes of the message. -/
theorem GetQRCodeLoginResult_rejected (env : Env) (h : LoginHelper) (tokenId : GoString)
    (body : Bytes) (r : LoginHttpResult QRCodeLoginResult)
    (hf : env.Fetch (str "GET") (GetQRCodeLoginResult.fullUrl h tokenId) (requestHeader env)
      = .ok body)
    (hj : env.UnmarshalQRCodeLogin body = .ok r) (hc : r.Code ≠ 0) :
    GetQRCodeLoginResult env h tokenId
      = .ret (none, some (.errorString (fmt.Sprintf r.Msg))) := by
  simp [GetQRCodeLoginResult, hf, hj, hc, fmt.Errorf]

/-- An envelope with a code other than 0 makes `GetRefreshToken` return a nil result and the
error that `fmt.Errorf` makes of the message. -/
theorem GetRefreshToken_rejected (env : Env) (h : LoginHelper) (tokenId : GoString)
    (body : Bytes) (r : LoginHttpResult QRCodeLoginResult)
    (hf : env.Fetch (str "GET") (GetRefreshToken.fullUrl h tokenId) (requestHeader env)
      = .ok body)
    (hj : env.UnmarshalQRCodeLogin body = .ok r) (hc : r.Code ≠ 0) :
    GetRefreshToken env h tokenId = .ret (none, some (.errorString (fmt.Sprintf r.Msg))) := by
  simp [GetRefreshToken, hf, hj, hc, fmt.Errorf]

/-- An envelope with code 0 and data makes `GetQRCodeLoginResult` return the data and a nil
error. -/
theorem GetQRCodeLoginResult_accepted (env : Env) (h : LoginHelper) (tokenId : GoString)
    (body : Bytes) (r : LoginHttpResult QRCodeLoginResult) (res : QRCodeLoginResult)
    (hf : env.Fetch (str "GET") (GetQRCodeLoginResult.fullUrl h tokenId) (requestHeader env)
      = .ok body)
    (hj : env.UnmarshalQRCodeLogin body = .ok r) (hc : r.Code = 0) (hd : r.Data = some res) :
    GetQRCodeLoginResult env h tokenId = .ret (some res, none) := by
  simp [GetQRCodeLoginResult, hf, hj, hc, hd]

/-- An envelope with code 0 and data makes `GetRefreshToken` return the data and a nil
error. -/
theorem GetRefreshToken_accepted (env : Env) (h : LoginHelper) (tokenId : GoString)
    (body : Bytes) (r : LoginHttpResult QRCodeLoginResult) (res : QRCodeLoginResult)
    (hf : env.Fetch (str "GET") (GetRefreshToken.fullUrl h tokenId) (requestHeader env)
      = .ok body)
    (hj : env.UnmarshalQRCodeLogin body = .ok r) (hc : r.Code = 0) (hd : r.Data = some res) :
    GetRefreshToken env h tokenId = .ret (some res, none) := by
  simp [GetRefreshToken, hf, hj, hc, hd]

/-- A token URL that parses, and in whose query `url.ParseQuery` finds a value for `tokenId`,
makes `GetQRCodeLoginUrl` return the data with the first such value as its `TokenId`. -/
theorem GetQRCodeLoginUrl_tokenId_of_values (env : Env) (h : LoginHelper)
    (keyStr : GoString) (body : Bytes) (r : LoginHttpResult QRCodeUrlResult)
    (token : QRCodeUrlResult) (u : url.URL) (v : GoString) (rest : List GoString)
    (hf : env.Fetch (str "GET") (GetQRCodeLoginUrl.fullUrl env h keyStr) (requestHeader env)
      = .ok body)
    (hj : env.UnmarshalQRCodeUrl body = .ok r) (hc : r.Code = 0) (hd : r.Data = some token)
    (hne : token.TokenUrl ≠ []) (hu : url.Parse env.parseHost token.TokenUrl = .ok u)
    (hq : (url.ParseQuery u.RawQuery).1.get (str "tokenId") = v :: rest) :
    GetQRCodeLoginUrl env h keyStr = .ret (some { token with TokenId := v }, none) := by
  have hlen : token.TokenUrl.length > 0 := List.length_pos.mpr hne
  simp only [GetQRCodeLoginUrl, hf, hj, hc, hd, hu, hq, hlen, if_true]
  simp

/-- A token URL that parses, and in whose query `url.ParseQuery` finds no value for `tokenId`,
makes `GetQRCodeLoginUrl` panic on the index into the values of `tokenId`. -/
theorem GetQRCodeLoginUrl_panics_without_values (env : Env) (h : LoginHelper)
    (keyStr : GoString) (body : Bytes) (r : LoginHttpResult QRCodeUrlResult)
    (token : QRCodeUrlResult) (u : url.URL)
    (hf : env.Fetch (str "GET") (GetQRCodeLoginUrl.fullUrl env h keyStr) (requestHeader env)
      = .ok body)
    (hj : env.UnmarshalQRCodeUrl body = .ok r) (hc : r.Code = 0) (hd : r.Data = some token)
    (hne : token.TokenUrl ≠ []) (hu : url.Parse env.parseHost token.TokenUrl = .ok u)
    (hq : (url.ParseQuery u.RawQuery).1.get (str "tokenId") = []) :
    GetQRCodeLoginUrl env h keyStr
      = .panic "runtime error: index out of range [0] with length 0" := by
  have hlen : token.TokenUrl.length > 0 := List.length_pos.mpr hne
  simp only [GetQRCodeLoginUrl, hf, hj, hc, hd, hu, hq, hlen, if_true]
  simp

/-- The example of the specification: the token URL
`https://example/login?tokenId=abc123&x=1` gives the token id `abc123`, whatever token id the
data carried; a value written with escapes is decoded, `a%2Bb+c%21` giving `a+b c!`. -/
theorem GetQRCodeLoginUrl_tokenId_examples :
    GetQRCodeLoginUrl (Env.answering ⟨0, [], some ⟨str "from-data",
        str "https://example/login?tokenId=abc123&x=1", 300⟩⟩ ⟨0, [], none⟩)
      (NewLoginHelper (str "https://api.example")) (str "key")
      = .ret (some ⟨str "abc123", str "https://example/login?tokenId=abc123&x=1", 300⟩, none) ∧
    GetQRCodeLoginUrl (Env.answering ⟨0, [], some ⟨str "from-data",
        str "https://example/login?x=1&tokenId=a%2Bb+c%21", 300⟩⟩ ⟨0, [], none⟩)
      (NewLoginHelper (str "https://api.example")) (str "key")
      = .ret (some ⟨str "a+b c!", str "https://example/login?x=1&tokenId=a%2Bb+c%21", 300⟩,
          none) := by
  decide


/-! ## Claims on the three calls to the remote service -/

namespace fmt

/-- A format without a percent sign is written as it stands. -/
theorem Sprintf_of_no_percent (format : GoString) (h : chr '%' ∉ format) :
    Sprintf format = format := by
  have ht : format.takeWhile (fun c => decide (c ≠ chr '%')) = format := by
    rw [List.takeWhile_eq_self_iff]
    intro c hc
    have : c ≠ chr '%' := fun hcp => h (hcp ▸ hc)
    simpa using this
  have hd : format.dropWhile (fun c => decide (c ≠ chr '%')) = [] := by
    rw [List.dropWhile_eq_nil_iff]
    intro c hc
    have : c ≠ chr '%' := fun hcp => h (hcp ▸ hc)
    simpa using this
  simp only [Sprintf, doPrintf, ht, hd]

end fmt

/-- C1 (the code departs from the claim): the service answers the three calls with code 1 and
the message `100%`. Each call returns a nil result and an error, but the message is used as
a format, and the text of the error is `100%!(NOVERB)`, not `100%`. -/
theorem C1_percent_in_msg_is_formatted :
    GetQRCodeLoginUrl (Env.answering ⟨1, str "100%", none⟩ ⟨1, str "100%", none⟩)
      (NewLoginHelper (str "https://api.example")) (str "key")
      = .ret (none, some (.errorString (str "100%!(NOVERB)"))) ∧
    GetQRCodeLoginResult (Env.answering ⟨1, str "100%", none⟩ ⟨1, str "100%", none⟩)
      (NewLoginHelper (str "https://api.example")) (str "token")
      = .ret (none, some (.errorString (str "100%!(NOVERB)"))) ∧
    GetRefreshToken (Env.answering ⟨1, str "100%", none⟩ ⟨1, str "100%", none⟩)
      (NewLoginHelper (str "https://api.example")) (str "token")
      = .ret (none, some (.errorString (str "100%!(NOVERB)"))) ∧
    str "100%!(NOVERB)" ≠ str "100%" := by
  decide

/-- C6 (the code departs from the claim): the token URL
`https://example/login?tokenId=a;b` parses and its query carries a `tokenId`.
`url.ParseQuery` reports an error on the piece with the semicolon and holds no value for
`tokenId`; the error is dropped, the empty list of values is indexed, and the call panics
instead of returning a token id. With the query `tokenId=%zz&tokenId=ok` the error on the
first piece is dropped as well, and the call returns the value of the second `tokenId`. -/
theorem C6_malformed_tokenId_panics_or_is_skipped :
    url.Parse Env.plainHost (str "https://example/login?tokenId=a;b")
      = .ok { Scheme := str "https", Host := str "example", Path := str "/login",
              RawQuery := str "tokenId=a;b" } ∧
    url.ParseQuery (str "tokenId=a;b")
      = ([], some (.errorString (str "invalid semicolon separator in query"))) ∧
    GetQRCodeLoginUrl (Env.answering ⟨0, [], some ⟨str "from-data",
        str "https://example/login?tokenId=a;b", 300⟩⟩ ⟨0, [], none⟩)
      (NewLoginHelper (str "https://api.example")) (str "key")
      = .panic "runtime error: index out of range [0] with length 0" ∧
    url.ParseQuery (str "tokenId=%zz&tokenId=ok")
      = ([(str "tokenId", [str "ok"])], some (.escapeError (str "%zz"))) ∧
    GetQRCodeLoginUrl (Env.answering ⟨0, [], some ⟨str "from-data",
        str "https://example/login?tokenId=%zz&tokenId=ok", 300⟩⟩ ⟨0, [], none⟩)
      (NewLoginHelper (str "https://api.example")) (str "key")
      = .ret (some ⟨str "ok", str "https://example/login?tokenId=%zz&tokenId=ok", 300⟩,
          none) := by
  decide


/-- C7 (the claim fails): the data of the answer carries the token id `abc` and an empty
token URL; the call succeeds and the `TokenId` of its result is `abc`, not empty. -/
theorem C7_counterexample :
    GetQRCodeLoginUrl (Env.answering ⟨0, [], some ⟨str "abc", [], 60⟩⟩ ⟨0, [], none⟩)
      (NewLoginHelper (str "https://api.example")) (str "key")
      = .ret (some ⟨str "abc", [], 60⟩, none) ∧
    (⟨str "abc", [], 60⟩ : QRCodeUrlResult).TokenUrl = [] ∧
    (⟨str "abc", [], 60⟩ : QRCodeUrlResult).TokenId ≠ [] := by
  decide

/-- C7, amended: when the envelope has code 0 and the token URL of its data is empty,
`GetQRCodeLoginUrl` succeeds with a nil error and returns the data as it was decoded, so the
`TokenId` of the result is the data's own `tokenId` field. -/
theorem C7_empty_tokenUrl_keeps_data (env : Env) (h : LoginHelper) (keyStr : GoString)
    (body : Bytes) (r : LoginHttpResult QRCodeUrlResult) (token : QRCodeUrlResult)
    (hf : env.Fetch (str "GET") (GetQRCodeLoginUrl.fullUrl env h keyStr) (requestHeader env)
      = .ok body)
    (hj : env.UnmarshalQRCodeUrl body = .ok r) (hc : r.Code = 0) (hd : r.Data = some token)
    (ht : token.TokenUrl = []) :
    GetQRCodeLoginUrl env h keyStr = .ret (some token, none) := by
  simp [GetQRCodeLoginUrl, hf, hj, hc, hd, ht]

theorem C7_empty_tokenUrl_keeps_data_witness :
    (Env.answering ⟨0, [], some ⟨str "abc", [], 60⟩⟩ ⟨0, [], none⟩).Fetch (str "GET")
      (GetQRCodeLoginUrl.fullUrl (Env.answering ⟨0, [], some ⟨str "abc", [], 60⟩⟩ ⟨0, [], none⟩)
        (NewLoginHelper (str "https://api.example")) (str "key"))
      (requestHeader (Env.answering ⟨0, [], some ⟨str "abc", [], 60⟩⟩ ⟨0, [], none⟩)) = .ok [] ∧
    GetQRCodeLoginUrl (Env.answering ⟨0, [], some ⟨str "abc", [], 60⟩⟩ ⟨0, [], none⟩)
      (NewLoginHelper (str "https://api.example")) (str "key")
      = .ret (some ⟨str "abc", [], 60⟩, none) :=
  ⟨rfl, C7_empty_tokenUrl_keeps_data _ (NewLoginHelper (str "https://api.example")) (str "key")
    [] ⟨0, [], some ⟨str "abc", [], 60⟩⟩ ⟨str "abc", [], 60⟩ rfl rfl rfl rfl rfl⟩

/-- C8 (the code departs from the claim): the answer is well formed, with code 0 and a token
URL that parses and whose query has no `tokenId`; `GetQRCodeLoginUrl` indexes the empty list
of values and panics instead of returning a result. -/
theorem C8_tokenUrl_without_tokenId_panics :
    url.Parse Env.plainHost (str "https://example/login?x=1")
      = .ok { Scheme := str "https", Host := str "example", Path := str "/login",
              RawQuery := str "x=1" } ∧
    GetQRCodeLoginUrl (Env.answering
        ⟨0, [], some ⟨str "t", str "https://example/login?x=1", 60⟩⟩ ⟨0, [], none⟩)
      (NewLoginHelper (str "https://api.example")) (str "key")
      = .panic "runtime error: index out of range [0] with length 0" := by
  decide

end Panlogin
